import Mathlib

/-! Interruptible standard-input reader (mosaic-stdin-posix.c).

A shallow embedding of `stdinReader_init`, `stdinReader_readInternal`,
`stdinReader_read`, `stdinReader_readWithTimeout`, `stdinReader_interrupt` and
`stdinReader_free`.

The C functions talk to the operating system through `calloc`, `free`, `pipe`,
`open`, `select`, `read`, `write` and `close`.  The embedding takes the
operating system as a parameter `Os σ`: a record giving, for every call, its
return value, the value left in `errno`, and the next state of the system.
Every embedded function also returns the list of system calls it issued, in
order.  Calls that may block (`select`, `read`, `write`) answer `none` when
they never return.

C `int` values are modelled as `Int`; the only arithmetic that can leave the
32-bit range is the multiplication in `stdinReader_readWithTimeout`, which is
wrapped explicitly.
-/

namespace Mosaic

/-! ## Types -/

/-- The C `struct timeval` handed to `select`. -/
structure timeval where
  tv_sec : Int
  tv_usec : Int
deriving DecidableEq, Repr

/-- One system call issued by the reader, with its arguments. -/
inductive Call where
  | calloc
  | free
  | pipe
  | open_ (path : String) (flags : Int)
  | select (nfds : Int) (readfds : List Int) (timeout : Option timeval)
  | read (fd : Int) (count : Int)
  | write (fd : Int) (bytes : List Nat)
  | close (fd : Int)
deriving DecidableEq, Repr

/-- Return value of a system call together with the value of `errno` when it returns. -/
structure SysRet where
  ret : Int
  errno : Int
deriving DecidableEq, Repr

/-- Outcome of `pipe(int[2])`: return value, the two descriptors stored, and `errno`. -/
structure PipeRet where
  ret : Int
  fds : Int × Int
  errno : Int
deriving DecidableEq, Repr

/-- Outcome of `select`: return value, the read set as the call leaves it, and `errno`. -/
structure SelectRet where
  ret : Int
  readfds : List Int
  errno : Int
deriving DecidableEq, Repr

/-- The operating system as seen by the reader.  `σ` is the state of the system. -/
structure Os (σ : Type) where
  calloc : σ → Bool × σ
  free : σ → σ
  pipe : σ → PipeRet × σ
  open_ : String → Int → σ → SysRet × σ
  select : Int → List Int → Option timeval → σ → Option (SelectRet × σ)
  read : Int → Int → σ → Option (SysRet × σ)
  write : Int → List Nat → σ → Option (SysRet × σ)
  close : Int → σ → SysRet × σ

/-- Value returned by an embedded function, the system state it leaves, and the calls it issued. -/
structure Out (α σ : Type) where
  val : α
  st : σ
  calls : List Call

/-- The descriptor number of standard input (`unistd.h`). -/
def STDIN_FILENO : Int := 0

/-- The C macro `FD_SET(fd, &set)`, on a descriptor set kept as a list of descriptor numbers.
(In C the macro is defined only for 0 ≤ fd < FD_SETSIZE; the list records any number.) -/
def FD_SET (fd : Int) (set : List Int) : List Int :=
  if fd ∈ set then set else fd :: set

/-- The C macro `FD_ISSET(fd, &set)`. -/
def FD_ISSET (fd : Int) (set : List Int) : Bool :=
  decide (fd ∈ set)

/-- The struct `stdinReaderImpl` of the source. -/
structure stdinReaderImpl where
  stdinFd : Int
  pipe : Int × Int
  fds : List Int
  nfds : Int
deriving DecidableEq, Repr

/-- Modelled from the spec: the struct `stdinReaderResult`, declared in mosaic.h, which is not
among the sources.  Its fields are those `stdinReader_init` assigns (`reader`, `error`), the
pair "(handle, errorCode)" of section 6; `reader` is `none` for a null pointer. -/
structure stdinReaderResult where
  reader : Option stdinReaderImpl
  error : Int
deriving DecidableEq, Repr

/-- Modelled from the spec: the struct `stdinRead`, declared in mosaic.h, which is not among
the sources.  Its fields are those `stdinReader_readInternal` assigns (`count`, `error`), the
pair "(count, errorCode)" of section 6.  The type `platformError` of the same header is an
integer error code and is modelled as `Int`. -/
structure stdinRead where
  count : Int
  error : Int
deriving DecidableEq, Repr

/-- Wrap-around of a mathematical integer into the 32-bit two's complement `int`. -/
def wrapInt32 (x : Int) : Int :=
  (x + 2147483648) % 4294967296 - 2147483648

/-- The largest C `int`. -/
def INT_MAX : Int := 2147483647

/-! ## The reader -/

section Code

variable {σ : Type}

/-- Embedding of `stdinReader_init` (lines 20-51).  The branch hints `likely` and `unlikely`
(cutils.h) do not change the truth of the condition they wrap and are left out. -/
def stdinReader_init (os : Os σ) (path : Option String) (s : σ) : Out stdinReaderResult σ :=
  let result : stdinReaderResult := { reader := none, error := 0 }
  let a := os.calloc s
  if a.1 = false then
    -- result.reader is left null
    { val := result, st := a.2, calls := [Call.calloc] }
  else
    let p := os.pipe a.2
    if p.1.ret ≠ 0 then
      { val := { result with error := p.1.errno }, st := os.free p.2,
        calls := [Call.calloc, Call.pipe, Call.free] }
    else
      match path with
      | some name =>
        let o := os.open_ name 0 p.2
        let stdinFd := o.1.ret
        let reader : stdinReaderImpl :=
          { stdinFd := stdinFd, pipe := p.1.fds, fds := [],
            nfds := if stdinFd > p.1.fds.1 then stdinFd else p.1.fds.1 }
        { val := { result with reader := some reader }, st := o.2,
          calls := [Call.calloc, Call.pipe, Call.open_ name 0] }
      | none =>
        let stdinFd := STDIN_FILENO
        let reader : stdinReaderImpl :=
          { stdinFd := stdinFd, pipe := p.1.fds, fds := [],
            nfds := if stdinFd > p.1.fds.1 then stdinFd else p.1.fds.1 }
        { val := { result with reader := some reader }, st := p.2,
          calls := [Call.calloc, Call.pipe] }

/-- The read set that `stdinReader_readInternal` passes to `select` (lines 59-63). -/
def watchSet (reader : stdinReaderImpl) : List Int :=
  FD_SET reader.pipe.1 (FD_SET reader.stdinFd reader.fds)

/-- Embedding of `stdinReader_readInternal` (lines 53-90).  The reader is returned as the
call leaves it (`select` overwrites `reader->fds`).  The contents of `buffer` are not
modelled. -/
def stdinReader_readInternal (os : Os σ) (reader : stdinReaderImpl) (count : Int)
    (timeout : Option timeval) (s : σ) : Option (Out (stdinRead × stdinReaderImpl) σ) :=
  let stdinFd := reader.stdinFd
  let fds1 := FD_SET stdinFd reader.fds
  let pipeIn := reader.pipe.1
  let fds2 := FD_SET pipeIn fds1
  let result : stdinRead := { count := 0, error := 0 }
  match os.select reader.nfds fds2 timeout s with
  | none => none
  | some (sel, s1) =>
    let reader1 : stdinReaderImpl := { reader with fds := sel.readfds }
    if sel.ret ≥ 0 then
      if FD_ISSET stdinFd sel.readfds ≠ false then
        match os.read stdinFd count s1 with
        | none => none
        | some (rd, s2) =>
          let c := rd.ret
          if c > 0 then
            some { val := ({ result with count := c }, reader1), st := s2,
                   calls := [Call.select reader.nfds fds2 timeout, Call.read stdinFd count] }
          else if c = 0 then
            some { val := ({ result with count := -1 }, reader1), st := s2,
                   calls := [Call.select reader.nfds fds2 timeout, Call.read stdinFd count] }
          else
            some { val := ({ result with error := rd.errno }, reader1), st := s2,
                   calls := [Call.select reader.nfds fds2 timeout, Call.read stdinFd count] }
      else
        -- the interrupt pipe was selected or the wait timed out: count stays 0
        some { val := (result, reader1), st := s1,
               calls := [Call.select reader.nfds fds2 timeout] }
    else
      some { val := ({ result with error := sel.errno }, reader1), st := s1,
             calls := [Call.select reader.nfds fds2 timeout] }

/-- Embedding of `stdinReader_read` (lines 92-94). -/
def stdinReader_read (os : Os σ) (reader : stdinReaderImpl) (count : Int) (s : σ) :
    Option (Out (stdinRead × stdinReaderImpl) σ) :=
  stdinReader_readInternal os reader count none s

/-- The `struct timeval` built by `stdinReader_readWithTimeout` (lines 102-104); the product
is computed in 32-bit `int`. -/
def timeoutOfMillis (timeoutMillis : Int) : timeval :=
  { tv_sec := 0, tv_usec := wrapInt32 (timeoutMillis * 1000) }

/-- Embedding of `stdinReader_readWithTimeout` (lines 96-107). -/
def stdinReader_readWithTimeout (os : Os σ) (reader : stdinReaderImpl) (count : Int)
    (timeoutMillis : Int) (s : σ) : Option (Out (stdinRead × stdinReaderImpl) σ) :=
  stdinReader_readInternal os reader count (some (timeoutOfMillis timeoutMillis)) s

/-- Embedding of `stdinReader_interrupt` (lines 109-115).  The byte written is the space
character, code 32. -/
def stdinReader_interrupt (os : Os σ) (reader : stdinReaderImpl) (s : σ) : Option (Out Int σ) :=
  let pipeOut := reader.pipe.2
  match os.write pipeOut [32] s with
  | none => none
  | some (w, s1) =>
    some { val := if w.ret = -1 then w.errno else 0, st := s1,
           calls := [Call.write pipeOut [32]] }

/-- Embedding of `stdinReader_free` (lines 117-132). -/
def stdinReader_free (os : Os σ) (reader : stdinReaderImpl) (s : σ) : Out Int σ :=
  let result0 : Int := 0
  let c0 := os.close reader.pipe.1 s
  let result1 := if c0.1.ret ≠ 0 then c0.1.errno else result0
  let c1 := os.close reader.pipe.2 c0.2
  let result2 := if c1.1.ret ≠ 0 ∧ result1 ≠ 0 then c1.1.errno else result1
  if reader.stdinFd ≠ STDIN_FILENO then
    let c2 := os.close reader.stdinFd c1.2
    let result3 := if c2.1.ret ≠ 0 ∧ result2 ≠ 0 then c2.1.errno else result2
    { val := result3, st := os.free c2.2,
      calls := [Call.close reader.pipe.1, Call.close reader.pipe.2,
                Call.close reader.stdinFd, Call.free] }
  else
    { val := result2, st := os.free c1.2,
      calls := [Call.close reader.pipe.1, Call.close reader.pipe.2, Call.free] }

end Code

/-! ## Operating systems to run the reader on -/

/-- Fixed answers for every system call: an operating system without state. -/
structure Script where
  calloc : Bool
  pipe : PipeRet
  open_ : String → SysRet
  select : Option SelectRet
  read : Option SysRet
  write : Option SysRet
  close : Int → SysRet

/-- The operating system that answers every call as the script says. -/
def scripted (k : Script) : Os Unit where
  calloc := fun s => (k.calloc, s)
  free := fun s => s
  pipe := fun s => (k.pipe, s)
  open_ := fun name _ s => (k.open_ name, s)
  select := fun _ _ _ s => k.select.map (fun r => (r, s))
  read := fun _ _ s => k.read.map (fun r => (r, s))
  write := fun _ _ s => k.write.map (fun r => (r, s))
  close := fun fd s => (k.close fd, s)

/-- A successful return with value `v`. -/
def sysOk (v : Int) : SysRet := { ret := v, errno := 0 }

/-- A failed call: return value -1 and `errno` set to `e`. -/
def sysFail (e : Int) : SysRet := { ret := -1, errno := e }

/-- No such file or directory. -/
def ENOENT : Int := 2

/-- Input/output error. -/
def EIO : Int := 5

/-- Bad file descriptor. -/
def EBADF : Int := 9

/-- Invalid argument. -/
def EINVAL : Int := 22

/-- Too many open files. -/
def EMFILE : Int := 24

/-- What an open descriptor refers to. -/
inductive FdKind where
  | wakeIn
  | wakeOut
  | input
  | other
deriving DecidableEq, Repr

/-- A process with one wake pipe and one input stream.
`table` is the open-descriptor table, `wake` the number of bytes written to the pipe and not
yet read, `avail` the number of bytes ready on the input stream, `eof` whether the input
stream has ended, `files` the paths that can be opened, `maxFds` the descriptor limit and
`granule` the width in bits of the words in which `select` copies descriptor sets (members at
or above `nfds` rounded up to a multiple of `granule` are left as they were; 0 stands for 1). -/
structure World where
  table : List (Int × FdKind)
  wake : Nat
  avail : Nat
  eof : Bool
  files : List String
  maxFds : Nat
  granule : Nat
deriving DecidableEq, Repr

/-- Capacity of a pipe in bytes: a write that does not fit blocks. -/
def PIPE_CAPACITY : Nat := 65536

namespace World

/-- The lowest descriptor number that is not open. -/
def lowestFree (t : List (Int × FdKind)) : Int :=
  match (List.range (t.length + 1)).find? (fun n => (t.lookup (n : Int)).isNone) with
  | some n => (n : Int)
  | none => (t.length : Int)

/-- Whether a read of `fd` would return at once. -/
def readable (w : World) (fd : Int) : Bool :=
  match w.table.lookup fd with
  | some FdKind.wakeIn => decide (0 < w.wake)
  | some FdKind.input => decide (0 < w.avail) || w.eof
  | _ => false

/-- First descriptor number that `select` leaves untouched for a given `nfds`. -/
def keptFrom (w : World) (nfds : Int) : Int :=
  if w.granule = 0 then nfds
  else ((nfds + (w.granule : Int) - 1) / (w.granule : Int)) * (w.granule : Int)

/-- Whether `select` examines `fd` for a given `nfds`: descriptors 0 .. nfds-1. -/
def examined (nfds : Int) (fd : Int) : Bool :=
  decide (0 ≤ fd) && decide (fd < nfds)

/-- Allocation always succeeds in a `World`. -/
def calloc (w : World) : Bool × World := (true, w)

/-- Releasing memory does not change a `World`. -/
def free (w : World) : World := w

/-- The call `pipe`: the two lowest free descriptors become the read and write ends, unless
the descriptor limit is reached (EMFILE). -/
def pipe (w : World) : PipeRet × World :=
  let a := lowestFree w.table
  let t1 := (a, FdKind.wakeIn) :: w.table
  let b := lowestFree t1
  if (w.maxFds : Int) ≤ b then
    ({ ret := -1, fds := (0, 0), errno := EMFILE }, w)
  else
    ({ ret := 0, fds := (a, b), errno := 0 }, { w with table := (b, FdKind.wakeOut) :: t1 })

/-- The call `open`: the lowest free descriptor for a path that exists, else ENOENT. -/
def open_ (name : String) (_flags : Int) (w : World) : SysRet × World :=
  if name ∈ w.files then
    let a := lowestFree w.table
    if (w.maxFds : Int) ≤ a then (sysFail EMFILE, w)
    else (sysOk a, { w with table := (a, FdKind.input) :: w.table })
  else (sysFail ENOENT, w)

/-- Whether `select` accepts the timeout: no negative field.  A null timeout waits forever. -/
def validTimeout (timeout : Option timeval) : Bool :=
  match timeout with
  | some t => decide (0 ≤ t.tv_sec) && decide (0 ≤ t.tv_usec)
  | none => true

/-- The members of `fds` that `select` examines and finds readable. -/
def readySet (w : World) (nfds : Int) (fds : List Int) : List Int :=
  fds.filter (fun fd => examined nfds fd && w.readable fd)

/-- The members of `fds` that `select` does not touch. -/
def keptSet (w : World) (nfds : Int) (fds : List Int) : List Int :=
  fds.filter (fun fd => decide (0 ≤ fd) && decide (w.keptFrom nfds ≤ fd))

/-- Whether `fds` names, inside the examined range, a descriptor that is not open. -/
def hasBadFd (w : World) (nfds : Int) (fds : List Int) : Bool :=
  fds.any (fun fd => examined nfds fd && (w.table.lookup fd).isNone)

/-- The call `select` with a read set only.  A negative `nfds` or timeout is rejected with
EINVAL and a closed descriptor in the examined range with EBADF (the set is then left as it
was).  Otherwise the call returns as soon as an examined descriptor is readable, leaving the
ready descriptors (and the untouched ones) in the set; with nothing readable it returns 0
when a timeout was given and never returns when none was. -/
def select (nfds : Int) (fds : List Int) (timeout : Option timeval) (w : World) :
    Option (SelectRet × World) :=
  if nfds < 0 ∨ validTimeout timeout = false then
    some ({ ret := -1, readfds := fds, errno := EINVAL }, w)
  else if w.hasBadFd nfds fds = true then
    some ({ ret := -1, readfds := fds, errno := EBADF }, w)
  else if w.readySet nfds fds = [] then
    match timeout with
    | none => none
    | some _ => some ({ ret := 0, readfds := w.keptSet nfds fds, errno := 0 }, w)
  else
    some ({ ret := ((w.readySet nfds fds).length : Int),
            readfds := w.readySet nfds fds ++ w.keptSet nfds fds, errno := 0 }, w)

/-- The call `read`: up to `count` of the pending bytes; 0 at the end of the input; blocks
when nothing is pending. -/
def read (fd : Int) (count : Int) (w : World) : Option (SysRet × World) :=
  if count < 0 then some (sysFail EINVAL, w)
  else
    match w.table.lookup fd with
    | some FdKind.input =>
      if 0 < w.avail then
        let n := min count.toNat w.avail
        some (sysOk (n : Int), { w with avail := w.avail - n })
      else if w.eof || decide (count = 0) then some (sysOk 0, w)
      else none
    | some FdKind.wakeIn =>
      if 0 < w.wake then
        let n := min count.toNat w.wake
        some (sysOk (n : Int), { w with wake := w.wake - n })
      else if count = 0 then some (sysOk 0, w)
      else none
    | _ => some (sysFail EBADF, w)

/-- The call `write`: bytes written to the wake write-end become pending on the read-end. -/
def write (fd : Int) (bytes : List Nat) (w : World) : Option (SysRet × World) :=
  match w.table.lookup fd with
  | some FdKind.wakeOut =>
    if w.wake + bytes.length ≤ PIPE_CAPACITY then
      some (sysOk (bytes.length : Int), { w with wake := w.wake + bytes.length })
    else none
  | some FdKind.other => some (sysOk (bytes.length : Int), w)
  | _ => some (sysFail EBADF, w)

/-- The call `close`: removes an open descriptor from the table, else EBADF. -/
def close (fd : Int) (w : World) : SysRet × World :=
  match w.table.lookup fd with
  | some _ => (sysOk 0, { w with table := w.table.filter (fun e => e.1 ≠ fd) })
  | none => (sysFail EBADF, w)

end World

/-- The operating system of a `World`. -/
def posix : Os World where
  calloc := World.calloc
  free := World.free
  pipe := World.pipe
  open_ := World.open_
  select := World.select
  read := World.read
  write := World.write
  close := World.close

/-- A freshly started process on a terminal: descriptor 0 is the terminal input, 1 and 2
the terminal output; nothing typed yet. -/
def freshWorld : World :=
  { table := [(0, FdKind.input), (1, FdKind.other), (2, FdKind.other)],
    wake := 0, avail := 0, eof := false, files := ["/dev/tty"], maxFds := 1024, granule := 64 }

/-- The reader that `stdinReader_init` builds in `freshWorld` when no path is given. -/
def stdinOnlyReader : stdinReaderImpl :=
  { stdinFd := 0, pipe := (3, 4), fds := [], nfds := 3 }

/-- The world after `stdinReader_init` without a path has run in `freshWorld`. -/
def stdinOnlyWorld : World :=
  { freshWorld with
    table := [(4, FdKind.wakeOut), (3, FdKind.wakeIn), (0, FdKind.input), (1, FdKind.other),
              (2, FdKind.other)] }

/-- The reader that `stdinReader_init` builds in `freshWorld` for the path "/dev/tty". -/
def pathReader : stdinReaderImpl :=
  { stdinFd := 5, pipe := (3, 4), fds := [], nfds := 5 }

/-- The world after `stdinReader_init` with the path "/dev/tty" has run in `freshWorld`. -/
def pathWorld : World :=
  { freshWorld with
    table := [(5, FdKind.input), (4, FdKind.wakeOut), (3, FdKind.wakeIn), (0, FdKind.input),
              (1, FdKind.other), (2, FdKind.other)] }

/-- A system in which `pipe` stores descriptors 3 and 4 and closing descriptor 4 fails
with EIO; every other close succeeds. -/
def secondCloseFails : Script :=
  { calloc := true, pipe := { ret := 0, fds := (3, 4), errno := 0 }, open_ := fun _ => sysOk 5,
    select := none, read := none, write := none,
    close := fun fd => if fd = 4 then sysFail EIO else sysOk 0 }

/-- A system in which closing descriptor 3 fails with EBADF and closing descriptor 4 fails
with EIO. -/
def bothClosesFail : Script :=
  { calloc := true, pipe := { ret := 0, fds := (3, 4), errno := 0 }, open_ := fun _ => sysOk 5,
    select := none, read := none, write := none,
    close := fun fd => if fd = 3 then sysFail EBADF else if fd = 4 then sysFail EIO else sysOk 0 }

/-- A system in which the wait reports descriptor 0 ready and the read then fails with EIO. -/
def readFails : Script :=
  { calloc := true, pipe := { ret := 0, fds := (3, 4), errno := 0 }, open_ := fun _ => sysOk 5,
    select := some { ret := 1, readfds := [0], errno := 0 }, read := some (sysFail EIO),
    write := some (sysOk 1), close := fun _ => sysOk 0 }

/-- The world `pathWorld` after one `stdinReader_interrupt`: one wake byte is pending. -/
def wokenWorld : World := { pathWorld with wake := 1 }

/-- The reader `pathReader` after a wait that reported only the wake read-end. -/
def wokenReader : stdinReaderImpl := { pathReader with fds := [3] }

/-- A process with descriptors 0 .. 61 open: descriptor 0 is the terminal input, the others
are unrelated open files. -/
def crowdedWorld : World :=
  { freshWorld with
    table := (0, FdKind.input) ::
      (List.range 61).map (fun n => (((n : Int) + 1), FdKind.other)) }

/-- The reader that `stdinReader_init` builds in `crowdedWorld` for the path "/dev/tty". -/
def crowdedReader : stdinReaderImpl :=
  { stdinFd := 64, pipe := (62, 63), fds := [], nfds := 64 }

/-- The world after `stdinReader_init` with the path "/dev/tty" has run in `crowdedWorld`. -/
def crowdedPathWorld : World :=
  { crowdedWorld with
    table := (64, FdKind.input) :: (63, FdKind.wakeOut) :: (62, FdKind.wakeIn) ::
      crowdedWorld.table }

/-! ## Reading -/

/-- C1: whenever the wait succeeds and reports the input handle ready (whatever it reports
about the wake channel), `stdinReader_readInternal` returns error 0 with count N when the
read of the input handle yields N > 0 bytes and error 0 with count -1 when it yields 0 bytes;
the same holds for `stdinReader_read` and `stdinReader_readWithTimeout`, and the end-of-input
count -1 differs from the no-data count 0. -/
theorem C1_ready_input_gives_data_or_eof {σ : Type} (os : Os σ) (reader : stdinReaderImpl)
    (maxCount : Int) (timeout : Option timeval) (s s1 s2 : σ) (sel : SelectRet) (rd : SysRet)
    (hwait : os.select reader.nfds (watchSet reader) timeout s = some (sel, s1))
    (hok : sel.ret ≥ 0)
    (hready : FD_ISSET reader.stdinFd sel.readfds = true)
    (hread : os.read reader.stdinFd maxCount s1 = some (rd, s2)) :
    (0 < rd.ret →
      (∃ o, stdinReader_readInternal os reader maxCount timeout s = some o ∧
        o.val.1 = { count := rd.ret, error := 0 }) ∧
      (timeout = none → ∃ o, stdinReader_read os reader maxCount s = some o ∧
        o.val.1 = { count := rd.ret, error := 0 }) ∧
      (∀ t, timeout = some (timeoutOfMillis t) →
        ∃ o, stdinReader_readWithTimeout os reader maxCount t s = some o ∧
          o.val.1 = { count := rd.ret, error := 0 })) ∧
    (rd.ret = 0 →
      (∃ o, stdinReader_readInternal os reader maxCount timeout s = some o ∧
        o.val.1 = { count := -1, error := 0 }) ∧
      (timeout = none → ∃ o, stdinReader_read os reader maxCount s = some o ∧
        o.val.1 = { count := -1, error := 0 }) ∧
      (∀ t, timeout = some (timeoutOfMillis t) →
        ∃ o, stdinReader_readWithTimeout os reader maxCount t s = some o ∧
          o.val.1 = { count := -1, error := 0 })) ∧
    ({ count := -1, error := 0 } : stdinRead).count ≠ ({ count := 0, error := 0 } : stdinRead).count := by
  unfold watchSet at hwait
  have hdata : 0 < rd.ret →
      ∃ o, stdinReader_readInternal os reader maxCount timeout s = some o ∧
        o.val.1 = { count := rd.ret, error := 0 } := by
    intro hpos
    simp [stdinReader_readInternal, hwait, hok, hready, hread, hpos]
  have heof : rd.ret = 0 →
      ∃ o, stdinReader_readInternal os reader maxCount timeout s = some o ∧
        o.val.1 = { count := -1, error := 0 } := by
    intro hz
    simp [stdinReader_readInternal, hwait, hok, hready, hread, hz]
  refine ⟨fun hpos => ⟨hdata hpos, ?_, ?_⟩, fun hz => ⟨heof hz, ?_, ?_⟩, by decide⟩
  · intro ht
    subst ht
    exact hdata hpos
  · intro t ht
    subst ht
    exact hdata hpos
  · intro ht
    subst ht
    exact heof hz
  · intro t ht
    subst ht
    exact heof hz

/-- Witness for C1: five bytes typed on standard input, read with room for ten; and
standard input at its end. -/
theorem C1_ready_input_gives_data_or_eof_witness :
    (∃ o, stdinReader_readInternal posix stdinOnlyReader 10 none
        { stdinOnlyWorld with avail := 5 } = some o ∧
      o.val.1 = { count := 5, error := 0 }) ∧
    (∃ o, stdinReader_readInternal posix stdinOnlyReader 10 none
        { stdinOnlyWorld with eof := true } = some o ∧
      o.val.1 = { count := -1, error := 0 }) :=
  ⟨((C1_ready_input_gives_data_or_eof posix stdinOnlyReader 10 none
      { stdinOnlyWorld with avail := 5 } { stdinOnlyWorld with avail := 5 } stdinOnlyWorld
      { ret := 1, readfds := [0], errno := 0 } (sysOk 5)
      (by decide) (by decide) (by decide) (by decide)).1 (by decide)).1,
   ((C1_ready_input_gives_data_or_eof posix stdinOnlyReader 10 none
      { stdinOnlyWorld with eof := true } { stdinOnlyWorld with eof := true }
      { stdinOnlyWorld with eof := true }
      { ret := 1, readfds := [0], errno := 0 } (sysOk 0)
      (by decide) (by decide) (by decide) (by decide)).2.1 (by decide)).1⟩

/-- Whenever the wait succeeds and leaves the bit of the input handle clear in the read set,
`stdinReader_readInternal` returns count 0 and error 0, the only call it issues is the
`select` (no read of the input handle), and the system is left as the wait left it; any
other such wait on the same reader gives the same result. -/
theorem no_data_when_input_bit_clear {σ : Type} (os : Os σ) (reader : stdinReaderImpl)
    (maxCount : Int) (timeout : Option timeval) (s s1 : σ) (sel : SelectRet)
    (hwait : os.select reader.nfds (watchSet reader) timeout s = some (sel, s1))
    (hok : sel.ret ≥ 0)
    (hunready : FD_ISSET reader.stdinFd sel.readfds = false) :
    ∃ o, stdinReader_readInternal os reader maxCount timeout s = some o ∧
      o.val.1 = { count := 0, error := 0 } ∧
      o.calls = [Call.select reader.nfds (watchSet reader) timeout] ∧
      (∀ fd n, Call.read fd n ∉ o.calls) ∧
      o.st = s1 ∧
      (∀ (timeout2 : Option timeval) (t t1 : σ) (sel2 : SelectRet),
        os.select reader.nfds (watchSet reader) timeout2 t = some (sel2, t1) →
        sel2.ret ≥ 0 → FD_ISSET reader.stdinFd sel2.readfds = false →
        ∃ o2, stdinReader_readInternal os reader maxCount timeout2 t = some o2 ∧
          o2.val.1 = o.val.1) := by
  unfold watchSet at hwait
  refine ⟨{ val := ({ count := 0, error := 0 }, { reader with fds := sel.readfds }), st := s1,
            calls := [Call.select reader.nfds (watchSet reader) timeout] }, ?_, rfl, rfl, ?_, rfl,
          ?_⟩
  · simp [stdinReader_readInternal, hwait, hok, hunready, watchSet]
  · simp
  · intro timeout2 t t1 sel2 hwait2 hok2 hunready2
    unfold watchSet at hwait2
    simp [stdinReader_readInternal, hwait2, hok2, hunready2]

/-- C2: in a process with descriptors 0 .. 61 open, `stdinReader_init` for "/dev/tty" returns
the reader with stdinFd 64, pipe (62, 63) and nfds 64.  The input handle 64 is outside the
range 0 .. 63 that `select` examines and the call leaves its bit set.  A wait of 100 ms that
times out with nothing ready (return value 0) is followed by a read of the input handle,
which returns count 5 when five bytes are pending and never returns when none are; a wait
ended by the wake channel alone (return value 1) is likewise followed by a read of the
input handle. -/
theorem C2_unwatched_input_is_read_after_wait :
    (stdinReader_init posix (some "/dev/tty") crowdedWorld).val =
      { reader := some crowdedReader, error := 0 } ∧
    (stdinReader_init posix (some "/dev/tty") crowdedWorld).st = crowdedPathWorld ∧
    World.examined crowdedReader.nfds crowdedReader.stdinFd = false ∧
    World.select crowdedReader.nfds (watchSet crowdedReader) (some (timeoutOfMillis 100))
        { crowdedPathWorld with avail := 5 } =
      some ({ ret := 0, readfds := [64], errno := 0 }, { crowdedPathWorld with avail := 5 }) ∧
    (stdinReader_readWithTimeout posix crowdedReader 10 100
        { crowdedPathWorld with avail := 5 }).map (fun o => (o.val.1, o.calls)) =
      some ({ count := 5, error := 0 },
        [Call.select 64 [62, 64] (some (timeoutOfMillis 100)), Call.read 64 10]) ∧
    World.select crowdedReader.nfds (watchSet crowdedReader) (some (timeoutOfMillis 100))
        crowdedPathWorld =
      some ({ ret := 0, readfds := [64], errno := 0 }, crowdedPathWorld) ∧
    (World.read 64 10 crowdedPathWorld).isNone = true ∧
    (stdinReader_readWithTimeout posix crowdedReader 10 100 crowdedPathWorld).isNone = true ∧
    World.select crowdedReader.nfds (watchSet crowdedReader) none
        { crowdedPathWorld with wake := 1 } =
      some ({ ret := 1, readfds := [62, 64], errno := 0 }, { crowdedPathWorld with wake := 1 }) ∧
    (stdinReader_read posix crowdedReader 10 { crowdedPathWorld with wake := 1 }).isNone = true ∧
    (stdinReader_read posix crowdedReader 10
        { crowdedPathWorld with wake := 1, avail := 5 }).map (fun o => (o.val.1, o.calls)) =
      some ({ count := 5, error := 0 }, [Call.select 64 [62, 64] none, Call.read 64 10]) := by
  refine ⟨by decide, by decide, by decide, by decide, by decide, by decide, by decide,
    by decide, by decide, by decide, by decide⟩

/-- C3: if the wait fails (returns a negative value), or the wait succeeds with the input
handle ready and the read of the input handle fails (returns a negative value), the returned
error is the value of `errno` left by the failing call and the returned count is 0;
conversely the returned error is 0 whenever neither call fails. -/
theorem C3_errors_are_errno {σ : Type} (os : Os σ) (reader : stdinReaderImpl)
    (maxCount : Int) (timeout : Option timeval) (s s1 : σ) (sel : SelectRet)
    (hwait : os.select reader.nfds (watchSet reader) timeout s = some (sel, s1)) :
    (sel.ret < 0 →
      ∃ o, stdinReader_readInternal os reader maxCount timeout s = some o ∧
        o.val.1 = { count := 0, error := sel.errno }) ∧
    (∀ rd s2, sel.ret ≥ 0 → FD_ISSET reader.stdinFd sel.readfds = true →
      os.read reader.stdinFd maxCount s1 = some (rd, s2) → rd.ret < 0 →
      ∃ o, stdinReader_readInternal os reader maxCount timeout s = some o ∧
        o.val.1 = { count := 0, error := rd.errno }) ∧
    (sel.ret ≥ 0 → FD_ISSET reader.stdinFd sel.readfds = false →
      ∃ o, stdinReader_readInternal os reader maxCount timeout s = some o ∧
        o.val.1.error = 0) ∧
    (∀ rd s2, sel.ret ≥ 0 → FD_ISSET reader.stdinFd sel.readfds = true →
      os.read reader.stdinFd maxCount s1 = some (rd, s2) → rd.ret ≥ 0 →
      ∃ o, stdinReader_readInternal os reader maxCount timeout s = some o ∧
        o.val.1.error = 0) := by
  unfold watchSet at hwait
  refine ⟨?_, ?_, ?_, ?_⟩
  · intro hneg
    have hn : ¬ sel.ret ≥ 0 := by omega
    simp [stdinReader_readInternal, hwait, hn]
  · intro rd s2 hok hready hread hneg
    have h1 : ¬ rd.ret > 0 := by omega
    have h2 : ¬ rd.ret = 0 := by omega
    simp [stdinReader_readInternal, hwait, hok, hready, hread, h1, h2]
  · intro hok hunready
    simp [stdinReader_readInternal, hwait, hok, hunready]
  · intro rd s2 hok hready hread hnn
    by_cases hpos : rd.ret > 0
    · simp [stdinReader_readInternal, hwait, hok, hready, hread, hpos]
    · have hz : rd.ret = 0 := by omega
      simp [stdinReader_readInternal, hwait, hok, hready, hread, hz]

/-- Witness for C3: a wait rejected with EINVAL because the timeout is negative, and a read
of the ready input handle failing with EIO. -/
theorem C3_errors_are_errno_witness :
    (∃ o, stdinReader_readInternal posix stdinOnlyReader 10
        (some { tv_sec := 0, tv_usec := -1 }) stdinOnlyWorld = some o ∧
      o.val.1 = { count := 0, error := EINVAL }) ∧
    (∃ o, stdinReader_readInternal (scripted readFails) stdinOnlyReader 10 none () = some o ∧
      o.val.1 = { count := 0, error := EIO }) :=
  ⟨(C3_errors_are_errno posix stdinOnlyReader 10 (some { tv_sec := 0, tv_usec := -1 })
      stdinOnlyWorld stdinOnlyWorld { ret := -1, readfds := [3, 0], errno := EINVAL }
      (by decide)).1 (by decide),
   (C3_errors_are_errno (scripted readFails) stdinOnlyReader 10 none () ()
      { ret := 1, readfds := [0], errno := 0 } (by decide)).2.1 (sysFail EIO) ()
      (by decide) (by decide) (by decide) (by decide)⟩

/-! ## Interrupting -/

/-- C8: `stdinReader_interrupt` issues exactly one call, a write of the one byte 32 to the
wake channel write-end `pipe[1]`, and nothing on any other descriptor; it returns 0 when the
write succeeds (does not return -1) and the `errno` of the write when it fails (returns -1). -/
theorem C8_interrupt_writes_one_byte {σ : Type} (os : Os σ) (reader : stdinReaderImpl)
    (s s1 : σ) (w : SysRet)
    (hwrite : os.write reader.pipe.2 [32] s = some (w, s1)) :
    ∃ o, stdinReader_interrupt os reader s = some o ∧
      o.calls = [Call.write reader.pipe.2 [32]] ∧
      ([32] : List Nat).length = 1 ∧
      o.st = s1 ∧
      (w.ret ≠ -1 → o.val = 0) ∧
      (w.ret = -1 → o.val = w.errno) := by
  refine ⟨{ val := if w.ret = -1 then w.errno else 0, st := s1,
            calls := [Call.write reader.pipe.2 [32]] }, ?_, rfl, rfl, rfl, ?_, ?_⟩
  · simp [stdinReader_interrupt, hwrite]
  · intro h
    simp [h]
  · intro h
    simp [h]

/-- Witness for C8: interrupting the reader of a freshly started process, and interrupting
when the wake write-end is not an open descriptor. -/
theorem C8_interrupt_writes_one_byte_witness :
    (∃ o, stdinReader_interrupt posix stdinOnlyReader stdinOnlyWorld = some o ∧
      o.calls = [Call.write 4 [32]] ∧ o.st = { stdinOnlyWorld with wake := 1 } ∧ o.val = 0) ∧
    (∃ o, stdinReader_interrupt posix stdinOnlyReader freshWorld = some o ∧
      o.calls = [Call.write 4 [32]] ∧ o.st = freshWorld ∧ o.val = EBADF) :=
  ⟨(C8_interrupt_writes_one_byte posix stdinOnlyReader stdinOnlyWorld
      { stdinOnlyWorld with wake := 1 } (sysOk 1) (by decide)).imp
      (fun _ h => ⟨h.1, h.2.1, h.2.2.2.1, h.2.2.2.2.1 (by decide)⟩),
   (C8_interrupt_writes_one_byte posix stdinOnlyReader freshWorld freshWorld (sysFail EBADF)
      (by decide)).imp
      (fun _ h => ⟨h.1, h.2.1, h.2.2.2.1, h.2.2.2.2.2 (by decide)⟩)⟩

/-! ## Initialising -/

/-- Shape of the reader that a successful `stdinReader_init` returns. -/
theorem init_reader_shape {σ : Type} (os : Os σ) (path : Option String) (s : σ)
    (r : stdinReaderImpl) (h : (stdinReader_init os path s).val.reader = some r) :
    r.fds = [] ∧ r.pipe = (os.pipe (os.calloc s).2).1.fds ∧
    r.stdinFd = (match path with
      | some name => (os.open_ name 0 (os.pipe (os.calloc s).2).2).1.ret
      | none => STDIN_FILENO) ∧
    r.nfds = (if r.stdinFd > r.pipe.1 then r.stdinFd else r.pipe.1) := by
  unfold stdinReader_init at h
  by_cases ha : (os.calloc s).1 = false
  · simp [ha] at h
  · by_cases hp : (os.pipe (os.calloc s).2).1.ret ≠ 0
    · simp [ha, hp] at h
    · cases path with
      | none =>
        simp [ha, hp] at h
        subst h
        exact ⟨rfl, rfl, rfl, rfl⟩
      | some name =>
        simp [ha, hp] at h
        subst h
        exact ⟨rfl, rfl, rfl, rfl⟩

/-- The watch bound stored by `stdinReader_init` is the larger of the two watched
descriptors itself, so that descriptor is outside the range 0 .. nfds-1. -/
theorem init_nfds_is_larger_descriptor {σ : Type} (os : Os σ) (path : Option String) (s : σ)
    (r : stdinReaderImpl) (h : (stdinReader_init os path s).val.reader = some r) :
    r.nfds = max r.stdinFd r.pipe.1 ∧ ¬ (r.stdinFd < r.nfds ∧ r.pipe.1 < r.nfds) := by
  have key := (init_reader_shape os path s r h).2.2.2
  constructor
  · rw [key]
    split_ifs <;> omega
  · rw [key]
    split_ifs <;> omega

/-- C4: in a freshly started process `stdinReader_init` without a path returns the reader
with stdinFd 0, pipe (3, 4) and nfds 3: the wake read-end 3 is not below nfds, `select`
does not examine it, and a read without timeout is not ended by a pending wake byte. -/
theorem C4_wake_read_end_outside_watched_range :
    (stdinReader_init posix none freshWorld).val = { reader := some stdinOnlyReader, error := 0 } ∧
    (stdinReader_init posix none freshWorld).st = stdinOnlyWorld ∧
    stdinOnlyReader.pipe.1 = stdinOnlyReader.nfds ∧
    ¬ (stdinOnlyReader.pipe.1 < stdinOnlyReader.nfds) ∧
    World.examined stdinOnlyReader.nfds stdinOnlyReader.pipe.1 = false ∧
    (stdinReader_read posix stdinOnlyReader 10 { stdinOnlyWorld with wake := 1 }).isNone = true := by
  refine ⟨by decide, by decide, by decide, by decide, by decide, by decide⟩

/-- C7: in a freshly started process `stdinReader_init` with a path that cannot be opened
(`open` returns -1 with ENOENT) reports error 0 and a non-null reader whose stdinFd is -1. -/
theorem C7_open_failure_not_reported :
    (World.open_ "/missing" 0 stdinOnlyWorld).1 = sysFail ENOENT ∧
    (stdinReader_init posix (some "/missing") freshWorld).val =
      { reader := some { stdinFd := -1, pipe := (3, 4), fds := [], nfds := 3 }, error := 0 } := by
  refine ⟨by decide, by decide⟩

/-- When `calloc` succeeds and `pipe` fails, `stdinReader_init` returns the `errno` of
`pipe` and a null reader; when `calloc` and `pipe` succeed it returns error 0 and a reader. -/
theorem init_pipe_outcomes {σ : Type} (os : Os σ) (path : Option String) (s : σ)
    (halloc : (os.calloc s).1 = true) :
    ((os.pipe (os.calloc s).2).1.ret ≠ 0 →
      (stdinReader_init os path s).val =
        { reader := none, error := (os.pipe (os.calloc s).2).1.errno }) ∧
    ((os.pipe (os.calloc s).2).1.ret = 0 →
      (stdinReader_init os path s).val.error = 0 ∧
      (stdinReader_init os path s).val.reader ≠ none) := by
  constructor
  · intro hp
    simp [stdinReader_init, halloc, hp]
  · intro hp
    cases path <;> simp [stdinReader_init, halloc, hp]

/-! ## The timeout -/

/-- C9: for the timeout 2147484 ms, which lies between 0 and INT_MAX, the 32-bit product
wraps to -2147483296 microseconds, so the timeval does not represent 2147484 ms. -/
theorem C9_timeout_overflows :
    (0 : Int) ≤ 2147484 ∧ (2147484 : Int) ≤ INT_MAX ∧
    timeoutOfMillis 2147484 = { tv_sec := 0, tv_usec := -2147483296 } ∧
    (timeoutOfMillis 2147484).tv_sec * 1000000 + (timeoutOfMillis 2147484).tv_usec
      ≠ 1000 * 2147484 := by
  refine ⟨by decide, by decide, by decide, by decide⟩

/-- For timeouts up to 2147483 ms the product does not wrap and the timeval represents
exactly the requested number of milliseconds. -/
theorem timeout_exact_below_overflow (t : Int) (h0 : 0 ≤ t) (h1 : t ≤ 2147483) :
    (timeoutOfMillis t).tv_sec * 1000000 + (timeoutOfMillis t).tv_usec = 1000 * t := by
  simp only [timeoutOfMillis, wrapInt32]
  omega

/-! ## Releasing -/

/-- Whenever the first close succeeds `stdinReader_free` returns 0, whatever the later
closes return. -/
theorem free_returns_zero_when_first_close_succeeds {σ : Type} (os : Os σ)
    (reader : stdinReaderImpl) (s : σ) (h : (os.close reader.pipe.1 s).1.ret = 0) :
    (stdinReader_free os reader s).val = 0 := by
  unfold stdinReader_free
  by_cases hfd : reader.stdinFd ≠ STDIN_FILENO <;> simp [h, hfd]

/-- C5: with closes of the wake read-end succeeding and of the wake write-end failing with
EIO, `stdinReader_free` returns 0; with the first close failing with EBADF and the second
with EIO it returns EIO, the error of the later failure. -/
theorem C5_free_loses_first_error :
    (secondCloseFails.close stdinOnlyReader.pipe.1).ret = 0 ∧
    (secondCloseFails.close stdinOnlyReader.pipe.2) = sysFail EIO ∧
    (stdinReader_free (scripted secondCloseFails) stdinOnlyReader ()).val = 0 ∧
    (bothClosesFail.close stdinOnlyReader.pipe.1) = sysFail EBADF ∧
    (bothClosesFail.close stdinOnlyReader.pipe.2) = sysFail EIO ∧
    (stdinReader_free (scripted bothClosesFail) stdinOnlyReader ()).val = EIO ∧
    EIO ≠ EBADF := by
  refine ⟨by decide, by decide, by decide, by decide, by decide, by decide, by decide⟩

namespace World

theorem select_state {n : Int} {fds : List Int} {t : Option timeval} {w w1 : World}
    {sel : SelectRet} (h : World.select n fds t w = some (sel, w1)) : w1 = w := by
  unfold World.select at h
  split_ifs at h
  · simp at h; exact h.2.symm
  · simp at h; exact h.2.symm
  · cases t <;> simp at h
    exact h.2.symm
  · simp at h; exact h.2.symm

theorem select_fail_errno {n : Int} {fds : List Int} {t : Option timeval} {w w1 : World}
    {sel : SelectRet} (h : World.select n fds t w = some (sel, w1)) (hneg : sel.ret < 0) :
    sel.errno ≠ 0 := by
  unfold World.select at h
  split_ifs at h
  · simp at h; rw [← h.1]; simp [EINVAL]
  · simp at h; rw [← h.1]; simp [EBADF]
  · cases t <;> simp at h
    rw [← h.1] at hneg; simp at hneg
  · simp at h; rw [← h.1] at hneg; simp at hneg; omega

theorem select_ok_shape {n : Int} {fds : List Int} {t : Option timeval} {w w1 : World}
    {sel : SelectRet} (h : World.select n fds t w = some (sel, w1)) (hok : sel.ret ≥ 0) :
    0 ≤ n ∧ validTimeout t = true ∧ w.hasBadFd n fds = false ∧
      sel.readfds = w.readySet n fds ++ w.keptSet n fds := by
  unfold World.select at h
  split_ifs at h with h1 h2 h3
  · simp at h; rw [← h.1] at hok; simp at hok
  · simp at h; rw [← h.1] at hok; simp at hok
  · cases t <;> simp at h
    push_neg at h1
    refine ⟨h1.1, by simpa using h1.2, by simpa using h2, ?_⟩
    rw [← h.1, h3]; simp
  · simp at h
    push_neg at h1
    refine ⟨h1.1, by simpa using h1.2, by simpa using h2, ?_⟩
    rw [← h.1]

theorem read_fail_errno {fd c : Int} {w w1 : World} {rd : SysRet}
    (h : World.read fd c w = some (rd, w1)) (hneg : rd.ret < 0) : rd.errno ≠ 0 := by
  have key : (0 ≤ rd.ret) ∨ rd.errno ≠ 0 := by
    unfold World.read at h
    by_cases hc : c < 0
    · simp [hc] at h; rw [← h.1]; simp [sysFail, EINVAL]
    · simp only [hc, if_false] at h
      split at h
      · split_ifs at h <;> simp at h <;> rw [← h.1] <;> simp [sysOk]
      · split_ifs at h <;> simp at h <;> rw [← h.1] <;> simp [sysOk]
      · simp at h; rw [← h.1]; simp [sysFail, EBADF]
  rcases key with k | k
  · omega
  · exact k

end World

theorem mem_FD_SET (x a : Int) (l : List Int) : x ∈ FD_SET a l ↔ x = a ∨ x ∈ l := by
  unfold FD_SET
  split_ifs with h
  · constructor
    · intro hx; exact Or.inr hx
    · rintro (rfl | hx)
      · exact h
      · exact hx
  · simp

theorem mem_watchSet (x : Int) (r : stdinReaderImpl) :
    x ∈ watchSet r ↔ x = r.pipe.1 ∨ x = r.stdinFd ∨ x ∈ r.fds := by
  simp [watchSet, mem_FD_SET]

theorem read_no_data_shape (reader : stdinReaderImpl) (count : Int) (timeout : Option timeval)
    (w : World) (o : Out (stdinRead × stdinReaderImpl) World)
    (h : stdinReader_readInternal posix reader count timeout w = some o)
    (hv : o.val.1 = { count := 0, error := 0 }) :
    ∃ sel, World.select reader.nfds (watchSet reader) timeout w = some (sel, w) ∧
      sel.ret ≥ 0 ∧ FD_ISSET reader.stdinFd sel.readfds = false ∧ o.st = w ∧
      o.val.2 = { reader with fds := sel.readfds } ∧
      o.calls = [Call.select reader.nfds (watchSet reader) timeout] := by
  unfold stdinReader_readInternal at h
  simp only [posix] at h
  cases hs : World.select reader.nfds (FD_SET reader.pipe.1 (FD_SET reader.stdinFd reader.fds))
      timeout w with
  | none => simp [hs] at h
  | some p =>
    obtain ⟨sel, w1⟩ := p
    have hw := World.select_state hs
    subst hw
    rw [hs] at h
    simp only at h
    by_cases hok : sel.ret ≥ 0
    · by_cases hset : FD_ISSET reader.stdinFd sel.readfds = true
      · simp only [hok, hset] at h
        cases hr : World.read reader.stdinFd count w1 with
        | none => simp [hr] at h
        | some q =>
          obtain ⟨rd, w2⟩ := q
          simp [hr] at h
          split_ifs at h with hc1 hc2
          · simp at h; subst h; simp at hv; omega
          · simp at h; subst h; simp at hv
          · simp at h; subst h; simp at hv
            have hneg : rd.ret < 0 := by omega
            exact absurd hv (World.read_fail_errno hr hneg)
      · have hset2 : FD_ISSET reader.stdinFd sel.readfds = false := by simpa using hset
        simp [hok, hset2] at h
        subst h
        exact ⟨sel, hs, hok, hset2, rfl, rfl, rfl⟩
    · simp [hok] at h
      subst h
      simp at hv
      have hneg : sel.ret < 0 := by omega
      exact absurd hv (World.select_fail_errno hs hneg)

theorem World.mem_readySet (w : World) (n x : Int) (fds : List Int) :
    x ∈ w.readySet n fds ↔ x ∈ fds ∧ World.examined n x = true ∧ w.readable x = true := by
  simp [World.readySet, List.mem_filter]

theorem World.mem_keptSet (w : World) (n x : Int) (fds : List Int) :
    x ∈ w.keptSet n fds ↔ x ∈ fds ∧ 0 ≤ x ∧ w.keptFrom n ≤ x := by
  simp [World.keptSet, List.mem_filter]

theorem World.hasBadFd_false (w : World) (n : Int) (fds : List Int) :
    w.hasBadFd n fds = false ↔
      ∀ x ∈ fds, World.examined n x = true → (w.table.lookup x).isNone = false := by
  simp [World.hasBadFd]

theorem wake_ends_next_read (w : World) (reader : stdinReaderImpl) (count count2 : Int)
    (timeout timeout2 : Option timeval) (o1 : Out (stdinRead × stdinReaderImpl) World)
    (hin : w.table.lookup reader.pipe.1 = some FdKind.wakeIn)
    (hpending : 0 < w.wake)
    (hwatch : World.examined reader.nfds reader.pipe.1 = true)
    (h1 : stdinReader_readInternal posix reader count timeout w = some o1)
    (hnodata : o1.val.1 = { count := 0, error := 0 })
    (ht2 : World.validTimeout timeout2 = true) :
    o1.st = w ∧ FD_ISSET reader.pipe.1 o1.val.2.fds = true ∧
    ∃ o2, stdinReader_readInternal posix o1.val.2 count2 timeout2 w = some o2 ∧
      o2.val.1 = { count := 0, error := 0 } ∧ o2.st = w ∧
      FD_ISSET reader.pipe.1 o2.val.2.fds = true ∧
      o2.calls = [Call.select reader.nfds (watchSet o1.val.2) timeout2] := by
  obtain ⟨sel, hs, hok, hunset, hst, hrd, -⟩ :=
    read_no_data_shape reader count timeout w o1 h1 hnodata
  obtain ⟨hn, -, hbad, hfds⟩ := World.select_ok_shape hs hok
  have hreadable : w.readable reader.pipe.1 = true := by
    simp [World.readable, hin, hpending]
  -- the wake read-end was reported by the first wait
  have hp1 : reader.pipe.1 ∈ sel.readfds := by
    rw [hfds, List.mem_append]
    left
    rw [World.mem_readySet]
    exact ⟨(mem_watchSet _ _).2 (Or.inl rfl), hwatch, hreadable⟩
  have hs1 : reader.stdinFd ∉ sel.readfds := by
    simpa [FD_ISSET] using hunset
  -- members of the second watch set were members of the first
  have hsub : ∀ x, x ∈ watchSet o1.val.2 → x ∈ watchSet reader := by
    intro x hx
    rw [hrd, mem_watchSet] at hx
    rw [mem_watchSet]
    rcases hx with hx | hx | hx
    · exact Or.inl hx
    · exact Or.inr (Or.inl hx)
    · have hx2 : x ∈ sel.readfds := hx
      rw [hfds, List.mem_append, World.mem_readySet, World.mem_keptSet, mem_watchSet] at hx2
      rcases hx2 with hx2 | hx2
      · exact hx2.1
      · exact hx2.1
  have hnfds : o1.val.2.nfds = reader.nfds := by rw [hrd]
  have hpipe : o1.val.2.pipe = reader.pipe := by rw [hrd]
  have hstd : o1.val.2.stdinFd = reader.stdinFd := by rw [hrd]
  have hbad2 : w.hasBadFd reader.nfds (watchSet o1.val.2) = false := by
    rw [World.hasBadFd_false] at hbad ⊢
    intro x hx hex
    exact hbad x (hsub x hx) hex
  have hp2 : reader.pipe.1 ∈ w.readySet reader.nfds (watchSet o1.val.2) := by
    rw [World.mem_readySet]
    refine ⟨?_, hwatch, hreadable⟩
    rw [mem_watchSet, hpipe]
    exact Or.inl rfl
  have hne : w.readySet reader.nfds (watchSet o1.val.2) ≠ [] := by
    intro h
    rw [h] at hp2
    simp at hp2
  have hs2 : reader.stdinFd ∉
      w.readySet reader.nfds (watchSet o1.val.2) ++ w.keptSet reader.nfds (watchSet o1.val.2) := by
    intro hx
    apply hs1
    rw [hfds]
    rw [List.mem_append, World.mem_readySet, World.mem_keptSet] at hx
    rw [List.mem_append, World.mem_readySet, World.mem_keptSet]
    rcases hx with hx | hx
    · exact Or.inl ⟨hsub _ hx.1, hx.2⟩
    · exact Or.inr ⟨hsub _ hx.1, hx.2⟩
  have hsel2 : World.select reader.nfds (watchSet o1.val.2) timeout2 w =
      some ({ ret := ((w.readySet reader.nfds (watchSet o1.val.2)).length : Int),
              readfds := w.readySet reader.nfds (watchSet o1.val.2) ++
                w.keptSet reader.nfds (watchSet o1.val.2),
              errno := 0 }, w) := by
    unfold World.select
    have h1 : ¬ (reader.nfds < 0 ∨ World.validTimeout timeout2 = false) := by
      rw [ht2]; simp; exact hn
    simp only [h1, if_false, hbad2, hne]
    simp
  refine ⟨hst, by simpa [hrd, FD_ISSET] using hp1, ?_⟩
  have hunset2 : FD_ISSET reader.stdinFd
      (w.readySet reader.nfds (watchSet o1.val.2) ++ w.keptSet reader.nfds (watchSet o1.val.2))
      = false := by
    simpa [FD_ISSET] using hs2
  have hset2 : FD_ISSET reader.pipe.1
      (w.readySet reader.nfds (watchSet o1.val.2) ++ w.keptSet reader.nfds (watchSet o1.val.2))
      = true := by
    simp [FD_ISSET, hp2]
  unfold watchSet at hsel2 hunset2 hset2 ⊢
  simp only [hnfds, hpipe, hstd] at hsel2 hunset2 hset2 ⊢
  simp [stdinReader_readInternal, posix, hnfds, hpipe, hstd, hsel2, hunset2, hset2]

/-- C10 (as stated, refuted): in a fresh process the reader is built for "/dev/tty", one
interrupt is sent, and a read without timeout returns count 0 because the wake read-end is
ready.  One wake byte is still pending afterwards, and the following read on the same reader,
with no input and no further interrupt, returns count 0 at once with the wake read-end
reported again; without the pending byte the same read would not return. -/
theorem C10_wake_not_consumed :
    (stdinReader_init posix (some "/dev/tty") freshWorld).val =
      { reader := some pathReader, error := 0 } ∧
    (stdinReader_init posix (some "/dev/tty") freshWorld).st = pathWorld ∧
    (stdinReader_interrupt posix pathReader pathWorld).map (fun o => (o.val, o.st)) =
      some (0, wokenWorld) ∧
    (stdinReader_read posix pathReader 10 wokenWorld).map (fun o => (o.val, o.st)) =
      some (({ count := 0, error := 0 }, wokenReader), wokenWorld) ∧
    FD_ISSET pathReader.pipe.1 wokenReader.fds = true ∧
    wokenWorld.wake = 1 ∧
    (stdinReader_read posix wokenReader 10 wokenWorld).map (fun o => (o.val, o.st)) =
      some (({ count := 0, error := 0 }, wokenReader), wokenWorld) ∧
    (stdinReader_read posix wokenReader 10 pathWorld).isNone = true := by
  refine ⟨by decide, by decide, by decide, by decide, by decide, by decide, by decide, by decide⟩

/-- C10 (amended): a read never takes the wake byte out of the channel.  When the reader's
wake read-end is inside the range `select` examines, after one successful
`stdinReader_interrupt` and one read that returned count 0 and error 0, the first read was
ended by the wake read-end, the number of pending wake bytes is still one more than before
the interrupt, and a following read on the same reader with any count and any valid timeout
(also none), with nothing else changed, returns count 0 and error 0 at once, issuing only
the `select`, which reports the wake read-end again. -/
theorem C10_wake_stays_pending (w0 : World) (reader : stdinReaderImpl) (count count2 : Int)
    (timeout timeout2 : Option timeval) (i : Out Int World)
    (o1 : Out (stdinRead × stdinReaderImpl) World)
    (hin : w0.table.lookup reader.pipe.1 = some FdKind.wakeIn)
    (hout : w0.table.lookup reader.pipe.2 = some FdKind.wakeOut)
    (hwatch : World.examined reader.nfds reader.pipe.1 = true)
    (hint : stdinReader_interrupt posix reader w0 = some i)
    (h1 : stdinReader_readInternal posix reader count timeout i.st = some o1)
    (hnodata : o1.val.1 = { count := 0, error := 0 })
    (ht2 : World.validTimeout timeout2 = true) :
    i.val = 0 ∧ i.st.wake = w0.wake + 1 ∧
    FD_ISSET reader.pipe.1 o1.val.2.fds = true ∧
    o1.st.wake = w0.wake + 1 ∧
    ∃ o2, stdinReader_readInternal posix o1.val.2 count2 timeout2 o1.st = some o2 ∧
      o2.val.1 = { count := 0, error := 0 } ∧
      FD_ISSET reader.pipe.1 o2.val.2.fds = true ∧
      o2.calls = [Call.select reader.nfds (watchSet o1.val.2) timeout2] ∧
      o2.st.wake = w0.wake + 1 := by
  have hi : i.val = 0 ∧ i.st = { w0 with wake := w0.wake + 1 } := by
    unfold stdinReader_interrupt at hint
    simp only [posix, World.write, hout] at hint
    split_ifs at hint with hcap
    simp at hint
    subst hint
    simp [sysOk]
  obtain ⟨hval, hst⟩ := hi
  have hin1 : i.st.table.lookup reader.pipe.1 = some FdKind.wakeIn := by rw [hst]; exact hin
  have hpending : 0 < i.st.wake := by rw [hst]; simp
  obtain ⟨hsame, hset, o2, h2, hv2, hst2, hset2, hcalls2⟩ :=
    wake_ends_next_read i.st reader count count2 timeout timeout2 o1 hin1 hpending hwatch h1
      hnodata ht2
  have hwake : i.st.wake = w0.wake + 1 := by rw [hst]
  refine ⟨hval, hwake, hset, by rw [hsame]; exact hwake, o2, ?_, hv2, hset2, hcalls2, ?_⟩
  · rw [hsame]; exact h2
  · rw [hst2]; exact hwake

/-- Witness for C10 (amended): the reader built for "/dev/tty" in a fresh process,
interrupted once and read twice without timeout. -/
theorem C10_wake_stays_pending_witness :
    ∃ o2, stdinReader_readInternal posix wokenReader 10 none wokenWorld = some o2 ∧
      o2.val.1 = { count := 0, error := 0 } ∧
      FD_ISSET pathReader.pipe.1 o2.val.2.fds = true ∧
      o2.calls = [Call.select pathReader.nfds (watchSet wokenReader) none] ∧
      o2.st.wake = pathWorld.wake + 1 :=
  (C10_wake_stays_pending pathWorld pathReader 10 10 none none
    { val := 0, st := wokenWorld, calls := [Call.write 4 [32]] }
    { val := ({ count := 0, error := 0 }, wokenReader), st := wokenWorld,
      calls := [Call.select 5 [3, 5] none] }
    (by decide) (by decide) (by decide) rfl rfl rfl (by decide)).2.2.2.2

end Mosaic
